import Mathlib

/-
  Verification development for the debug-symbol synthesis subsystem of the
  ponyc compiler backend (src/libponyc/debug/symbols.cc).

  Shallow embedding conventions:
  * The LLVM metadata graph built through the DIBuilder is modelled as a list
    of (id, Node) pairs; every DIBuilder creation call allocates a fresh node
    (id = nextId) that records the call's arguments.  Handles (DIType*,
    DIScope*, ...) are node ids (Nat); a possibly-null handle is Option Nat.
  * replaceAllUsesWith is modelled as rewriting every operand of every node
    in the graph that equals the old id to the new id (Node.replaceUses).
    Raw ids stored in the registry are C pointers and are not rewritten,
    exactly as in the source.
  * The symbol registry (hashmap keyed on interned name pointers) is an
    association list keyed on Option String; the NULL name pointer (possible
    via frame->type_name when a frame was pushed with g == NULL) is the key
    none.  get_entry auto-vivifies an entry whose type fields are all unset,
    matching the default-constructed DITypes of the PONY_LLVM < 307 branch.
  * The frame stack (debug_frame_t with prev pointers) is a list of Frame,
    head = top of the stack.
  * Operations whose C code dereferences a NULL pointer or fails the assert
    in symbols_lexicalscope return Option Symbols, with none standing for
    the fatal, non-recoverable abort of the compilation process.
  * size_t -> unsigned narrowing on source coordinates (DebugLoc::get) is
    kept as % 2^32; the (int) casts on line numbers passed to type-creation
    calls are not observable in any claim and are left as plain Nat.
-/

namespace PonyDebug

/-- One source location as carried by llvm DebugLoc: line, column and the
scope handle the location was formed against (none = NULL scope). -/
structure DebugLoc where
  line : Nat
  col : Nat
  scope : Option Nat
deriving DecidableEq, Repr

/-- DebugLoc::get(line, col, scope) with the size_t -> unsigned narrowing
of the call sites in symbols.cc. -/
def DebugLoc.get (line col : Nat) (scope : Option Nat) : DebugLoc :=
  ⟨line % 2 ^ 32, col % 2 ^ 32, scope⟩

/-- The empty DebugLoc of a memset-zeroed frame. -/
def DebugLoc.empty : DebugLoc := ⟨0, 0, none⟩

def DW_TAG_class_type : Nat := 2
def DW_TAG_structure_type : Nat := 19
def DW_TAG_const_type : Nat := 38
def DW_ACCESS_public : Nat := 1
def DW_ACCESS_private : Nat := 3

/-- One node of the metadata graph: each constructor records the arguments
of the corresponding DIBuilder creation call in symbols.cc.  Operand fields
of type Option Nat model handles that may be NULL. -/
inductive Node where
  | file (fullpath : String)
  | compileUnit (name fullpath : String)
  | pointerType (pointee : Option Nat) (size align : Nat)
  | qualifiedType (tag : Nat) (base : Option Nat)
  | replaceable (tag : Nat) (name : String) (scope : Option Nat) (file line : Nat)
  | structType (scope : Option Nat) (name : String) (file line size align : Nat)
      (elements : List Nat)
  | classType (scope : Option Nat) (name : String) (file line size align offset : Nat)
      (elements : List Nat)
  | memberType (scope : Option Nat) (name : String)
      (file line size align offset visibility : Nat) (base : Option Nat)
  | subroutineType (file : Nat) (params : List (Option Nat))
  | methodScope (context : Option Nat) (name mangled : String) (file line : Nat)
      (sig : Nat)
  | lexicalBlock (parent file line col : Nat)
deriving DecidableEq, Repr

/-- Every id referenced by a node (its metadata operands). -/
def Node.operands : Node → List Nat
  | .file _ => []
  | .compileUnit _ _ => []
  | .pointerType p _ _ => p.toList
  | .qualifiedType _ b => b.toList
  | .replaceable _ _ sc f _ => sc.toList ++ [f]
  | .structType sc _ f _ _ _ els => sc.toList ++ [f] ++ els
  | .classType sc _ f _ _ _ _ els => sc.toList ++ [f] ++ els
  | .memberType sc _ f _ _ _ _ _ b => sc.toList ++ [f] ++ b.toList
  | .subroutineType f ps => f :: ps.reduceOption
  | .methodScope c _ _ f _ g => c.toList ++ [f, g]
  | .lexicalBlock p f _ _ => [p, f]

def substN (old new x : Nat) : Nat := if x = old then new else x

def substO (old new : Nat) (x : Option Nat) : Option Nat := x.map (substN old new)

/-- Rewrite every operand equal to old into new: the effect of
replaceAllUsesWith on one node of the graph. -/
def Node.replaceUses (old new : Nat) : Node → Node
  | .file p => .file p
  | .compileUnit n p => .compileUnit n p
  | .pointerType p sz al => .pointerType (substO old new p) sz al
  | .qualifiedType tg b => .qualifiedType tg (substO old new b)
  | .replaceable tg n sc f l => .replaceable tg n (substO old new sc) (substN old new f) l
  | .structType sc n f l sz al els =>
      .structType (substO old new sc) n (substN old new f) l sz al (els.map (substN old new))
  | .classType sc n f l sz al off els =>
      .classType (substO old new sc) n (substN old new f) l sz al off (els.map (substN old new))
  | .memberType sc n f l sz al off vis b =>
      .memberType (substO old new sc) n (substN old new f) l sz al off vis (substO old new b)
  | .subroutineType f ps => .subroutineType (substN old new f) (ps.map (substO old new))
  | .methodScope c n m f l g =>
      .methodScope (substO old new c) n m (substN old new f) l (substN old new g)
  | .lexicalBlock p f l c => .lexicalBlock (substN old new p) (substN old new f) l c

/-- debug_sym_t: one registry entry.  name models the interned const char*
key (none = NULL pointer); the four handle fields start unset. -/
structure Sym where
  name : Option String
  type : Option Nat := none
  qualified : Option Nat := none
  actual : Option Nat := none
  prelim : Option Nat := none
deriving DecidableEq, Repr

/-- A freshly vivified registry entry: only the key is filled in. -/
def emptySym (n : Option String) : Sym := { name := n }

/-- debug_frame_t: one entry of the scope stack (prev pointers become the
tail of the list of frames). -/
structure Frame where
  type_name : Option String := none
  size : Nat := 0
  members : List Nat := []
  scope : Option Nat := none
  location : DebugLoc := DebugLoc.empty
deriving DecidableEq, Repr

/-- The frame built by symbols_push_frame from a gentype_t (g == NULL is
none; otherwise the type name and field count are copied). -/
def newFrame : Option (String × Nat) → Frame
  | some (tn, fc) => { type_name := some tn, size := fc }
  | none => {}

/-- symbols_t: the registry map, the metadata graph with its allocation
counter, the compile unit handle, the release flag, the frame stack and the
current debug location of the IR builder (the generation cursor). -/
structure Symbols where
  map : List Sym := []
  graph : List (Nat × Node) := []
  nextId : Nat := 0
  unit : Option Nat := none
  release : Bool := false
  frames : List Frame := []
  curLoc : DebugLoc := DebugLoc.empty
deriving DecidableEq, Repr

/-- symbolmap_get by key. -/
def lookupSym : List Sym → Option String → Option Sym
  | [], _ => none
  | x :: m, n => if x.name = n then some x else lookupSym m n

/-- Mutation of the (unique) entry with the given key through the pointer
returned by get_entry: applies f to the first matching entry. -/
def updateSym : List Sym → Option String → (Sym → Sym) → List Sym
  | [], _, _ => []
  | x :: m, n, f => if x.name = n then f x :: m else x :: updateSym m n f

/-- Lookup of a node of the metadata graph by id. -/
def lookupNode : List (Nat × Node) → Nat → Option Node
  | [], _ => none
  | (i, nd) :: g, j => if i = j then some nd else lookupNode g j

/-- One DIBuilder creation call: allocate a fresh id for the node. -/
def alloc (s : Symbols) (n : Node) : Nat × Symbols :=
  (s.nextId, { s with graph := (s.nextId, n) :: s.graph, nextId := s.nextId + 1 })

/-- get_entry: return the existing entry for the name, or vivify an empty
one (symbolmap_put) and return it. -/
def get_entry (s : Symbols) (n : Option String) : Sym × Symbols :=
  match lookupSym s.map n with
  | some v => (v, s)
  | none => (emptySym n, { s with map := emptySym n :: s.map })

/-- The descriptor value a lookup of the name observes (the value behind the
pointer get_entry returns). -/
def getOrCreateVal (s : Symbols) (n : Option String) : Sym := (get_entry s n).1

/-- replaceAllUsesWith over the whole graph. -/
def rauw (s : Symbols) (old new : Nat) : Symbols :=
  { s with graph := s.graph.map (fun pr => (pr.1, pr.2.replaceUses old new)) }

/-- dwarf_meta_t, modelled from its uses in symbols.cc (the header is not
part of the excerpt): the flags bitmask becomes one boolean per flag tested,
and params together with its length stand for the params/size pair read by
symbols_method. -/
structure dwarf_meta_t where
  name : String := ""
  mangled : String := ""
  typearg : String := ""
  file : String := ""
  line : Nat := 0
  pos : Nat := 0
  offset : Nat := 0
  size : Nat := 0
  align : Nat := 0
  params : List String := []
  isTuple : Bool := false
  isPrivate : Bool := false
  isConstant : Bool := false
deriving DecidableEq, Repr

/-- symbols_init: empty map, no frame, the optimisation flag recorded. -/
def symbols_init (optimised : Bool) : Symbols := { release := optimised }

/-- symbols_package: createCompileUnit, stored as the unit handle. -/
def symbols_package (s : Symbols) (path name : String) : Symbols :=
  let u := (alloc s (Node.compileUnit name path)).1
  let s1 := (alloc s (Node.compileUnit name path)).2
  { s1 with unit := some u }

/-- symbols_push_frame: a zeroed frame, filled from g when non-null, linked
in front of the stack. -/
def symbols_push_frame (s : Symbols) (g : Option (String × Nat)) : Symbols :=
  { s with frames := newFrame g :: s.frames }

/-- symbols_pop_frame: unlink and free the top frame.  With no frame the C
code dereferences a NULL frame pointer: fatal, modelled as none. -/
def symbols_pop_frame (s : Symbols) : Option Symbols :=
  match s.frames with
  | [] => none
  | _ :: rest => some { s with frames := rest }

/-- symbols_pointer: createPointerType over the type argument's use type,
then actual := type and qualified := const wrapper. -/
def symbols_pointer (s : Symbols) (meta : dwarf_meta_t) : Symbols :=
  let s1 := (get_entry s (some meta.name)).2
  let typearg := (get_entry s1 (some meta.typearg)).1
  let s2 := (get_entry s1 (some meta.typearg)).2
  let ptr := (alloc s2 (Node.pointerType typearg.type meta.size meta.align)).1
  let s3 := (alloc s2 (Node.pointerType typearg.type meta.size meta.align)).2
  let q := (alloc s3 (Node.qualifiedType DW_TAG_const_type (some ptr))).1
  let s4 := (alloc s3 (Node.qualifiedType DW_TAG_const_type (some ptr))).2
  { s4 with
    map := updateSym s4.map (some meta.name)
      (fun d => { d with type := some ptr, actual := some ptr, qualified := some q }) }

/-- symbols_declare: createReplaceableCompositeType placeholder; for a tuple
the use type is the placeholder itself, otherwise a pointer to it; qualified
is the const wrapper of the use type. -/
def symbols_declare (s : Symbols) (meta : dwarf_meta_t) : Symbols :=
  let s1 := (get_entry s (some meta.name)).2
  let f := (alloc s1 (Node.file meta.file)).1
  let s2 := (alloc s1 (Node.file meta.file)).2
  let tag := if meta.isTuple then DW_TAG_structure_type else DW_TAG_class_type
  let p := (alloc s2 (Node.replaceable tag meta.name s2.unit f meta.line)).1
  let s3 := (alloc s2 (Node.replaceable tag meta.name s2.unit f meta.line)).2
  if meta.isTuple then
    let q := (alloc s3 (Node.qualifiedType DW_TAG_const_type (some p))).1
    let s4 := (alloc s3 (Node.qualifiedType DW_TAG_const_type (some p))).2
    { s4 with
      map := updateSym s4.map (some meta.name)
        (fun d => { d with prelim := some p, type := some p, qualified := some q }) }
  else
    let ptr := (alloc s3 (Node.pointerType (some p) meta.size meta.align)).1
    let s4 := (alloc s3 (Node.pointerType (some p) meta.size meta.align)).2
    let q := (alloc s4 (Node.qualifiedType DW_TAG_const_type (some ptr))).1
    let s5 := (alloc s4 (Node.qualifiedType DW_TAG_const_type (some ptr))).2
    { s5 with
      map := updateSym s5.map (some meta.name)
        (fun d => { d with prelim := some p, type := some ptr, qualified := some q }) }

/-- symbols_field: createMemberType from the field type's qualified variant
(when constant) or plain use type, appended to the top frame's member list.
With no frame the C code dereferences NULL: fatal, modelled as none. -/
def symbols_field (s : Symbols) (meta : dwarf_meta_t) : Option Symbols :=
  let d := (get_entry s (some meta.typearg)).1
  let s1 := (get_entry s (some meta.typearg)).2
  match s1.frames with
  | [] => none
  | fr :: rest =>
    let visibility := if meta.isPrivate then DW_ACCESS_private else DW_ACCESS_public
    let use_type := if meta.isConstant then d.qualified else d.type
    let f := (alloc s1 (Node.file meta.file)).1
    let s2 := (alloc s1 (Node.file meta.file)).2
    let m := (alloc s2 (Node.memberType s2.unit meta.name f meta.line meta.size
      meta.align meta.offset visibility use_type)).1
    let s3 := (alloc s2 (Node.memberType s2.unit meta.name f meta.line meta.size
      meta.align meta.offset visibility use_type)).2
    some { s3 with frames := { fr with members := fr.members ++ [m] } :: rest }

/-- The loop of symbols_method over params[1..size-1]: each parameter
contributes its qualified variant, vivifying entries along the way. -/
def paramQuals (s : Symbols) : List String → List (Option Nat) × Symbols
  | [] => ([], s)
  | p :: ps =>
    let v := (get_entry s (some p)).1
    let s1 := (get_entry s (some p)).2
    let rest := (paramQuals s1 ps).1
    let s2 := (paramQuals s1 ps).2
    (v.qualified :: rest, s2)

/-- symbols_method: subroutine signature with the return type's plain use
type first and the parameters' qualified variants after it, then a method
scope parented at the owner's actual descriptor, stored on the top frame.
An empty params array (params[0] out of bounds) or a missing frame
(NULL dereference) is fatal, modelled as none. -/
def symbols_method (s : Symbols) (meta : dwarf_meta_t) : Option Symbols :=
  match meta.params with
  | [] => none
  | r :: ps =>
    let rt := (get_entry s (some r)).1.type
    let s1 := (get_entry s (some r)).2
    let qs := (paramQuals s1 ps).1
    let s2 := (paramQuals s1 ps).2
    let f := (alloc s2 (Node.file meta.file)).1
    let s3 := (alloc s2 (Node.file meta.file)).2
    let sig := (alloc s3 (Node.subroutineType f (rt :: qs))).1
    let s4 := (alloc s3 (Node.subroutineType f (rt :: qs))).2
    match s4.frames with
    | [] => none
    | fr :: rest =>
      let d := (get_entry s4 fr.type_name).1
      let s5 := (get_entry s4 fr.type_name).2
      let m := (alloc s5 (Node.methodScope d.actual meta.name meta.mangled f
        meta.line sig)).1
      let s6 := (alloc s5 (Node.methodScope d.actual meta.name meta.mangled f
        meta.line sig)).2
      some { s6 with frames := { fr with scope := some m } :: rest }

/-- symbols_composite: build the final aggregate from the top frame's
accumulated members (struct for a tuple, class otherwise), set actual (and,
for a tuple, the use type) to it, and replaceAllUsesWith the preliminary
placeholder.  No frame (NULL dereference) or no placeholder (null
replaceAllUsesWith) is fatal, modelled as none. -/
def symbols_composite (s : Symbols) (meta : dwarf_meta_t) : Option Symbols :=
  match s.frames with
  | [] => none
  | fr :: _ =>
    let f := (alloc s (Node.file meta.file)).1
    let s1 := (alloc s (Node.file meta.file)).2
    let d := (get_entry s1 (some meta.name)).1
    let s2 := (get_entry s1 (some meta.name)).2
    match d.prelim with
    | none => none
    | some p =>
      if meta.isTuple then
        let a := (alloc s2 (Node.structType s2.unit meta.name f meta.line meta.size
          meta.align fr.members)).1
        let s3 := (alloc s2 (Node.structType s2.unit meta.name f meta.line meta.size
          meta.align fr.members)).2
        let s4 := { s3 with
          map := updateSym s3.map (some meta.name)
            (fun d0 => { d0 with actual := some a, type := some a }) }
        some (rauw s4 p a)
      else
        let a := (alloc s2 (Node.classType s2.unit meta.name f meta.line meta.size
          meta.align 0 fr.members)).1
        let s3 := (alloc s2 (Node.classType s2.unit meta.name f meta.line meta.size
          meta.align 0 fr.members)).2
        let s4 := { s3 with
          map := updateSym s3.map (some meta.name)
            (fun d0 => { d0 with actual := some a }) }
        some (rauw s4 p a)

/-- symbols_lexicalscope: the parent frame's scope handle must be set
(assert, fatal otherwise); createLexicalBlock parented there, stored on the
top frame.  Fewer than two frames dereferences NULL: fatal, none. -/
def symbols_lexicalscope (s : Symbols) (meta : dwarf_meta_t) : Option Symbols :=
  match s.frames with
  | fr :: parent :: rest =>
    let f := (alloc s (Node.file meta.file)).1
    let s1 := (alloc s (Node.file meta.file)).2
    match parent.scope with
    | none => none
    | some h =>
      let b := (alloc s1 (Node.lexicalBlock h f meta.line meta.pos)).1
      let s2 := (alloc s1 (Node.lexicalBlock h f meta.line meta.pos)).2
      some { s2 with frames := { fr with scope := some b } :: parent :: rest }
  | _ => none

/-- symbols_location: form the DebugLoc against the top frame's scope, store
it on the frame and forward it to the generation cursor.  With no frame the
C code dereferences NULL: fatal, modelled as none. -/
def symbols_location (s : Symbols) (line pos : Nat) : Option Symbols :=
  match s.frames with
  | [] => none
  | fr :: rest =>
    let loc := DebugLoc.get line pos fr.scope
    some { s with frames := { fr with location := loc } :: rest, curLoc := loc }

/-- symbols_reset: with disable, zero the top frame's stored location and
forward the zero location; otherwise re-forward the top frame's stored
location.  With no frame both branches are skipped. -/
def symbols_reset (s : Symbols) (disable : Bool) : Symbols :=
  match s.frames with
  | [] => s
  | fr :: rest =>
    if disable then
      let loc := DebugLoc.get 0 0 none
      { s with frames := { fr with location := loc } :: rest, curLoc := loc }
    else
      { s with curLoc := fr.location }

/-! Concrete scenario for the forward-declare / resolve protocol: compile
unit, forward declaration of the reference type A, pointer APtr targeting A
(captured against the placeholder), a frame for A, one member f typed APtr,
then resolution of A (the scenario of the spec's testable property). -/

def c2s0 : Symbols := symbols_package (symbols_init false) "/pkg" "pkg"

def c2s1 : Symbols :=
  symbols_declare c2s0 { name := "A", file := "a.pony", line := 1, size := 64, align := 64 }

def c2s2 : Symbols :=
  symbols_pointer c2s1 { name := "APtr", typearg := "A", size := 64, align := 64 }

def c2s3 : Symbols := symbols_push_frame c2s2 (some ("A", 1))

def c2s4 : Option Symbols :=
  symbols_field c2s3
    { name := "f", typearg := "APtr", file := "a.pony", line := 2, size := 64, align := 64 }

def c2s5 : Option Symbols :=
  c2s4.bind (fun s =>
    symbols_composite s { name := "A", file := "a.pony", line := 1, size := 64, align := 64 })

/-- A state with one open frame whose scope handle was set by a method
scope: push a frame for type T, then open a method with one descriptor
name (the return type). -/
def locBase : Option Symbols :=
  symbols_method (symbols_push_frame (symbols_init false) (some ("T", 0)))
    { name := "m", mangled := "m", file := "t.pony", line := 1, params := ["None"] }

/-- The suppress/resume round trip of the location-tracking claim:
set_location(10,4), then suppress, then resume. -/
def c1run : Option Symbols :=
  (locBase.bind (fun t => symbols_location t 10 4)).map
    (fun t => symbols_reset (symbols_reset t true) false)

def oneFrame : Symbols := symbols_push_frame (symbols_init false) none

/-- A constant, private field of type T (witness input). -/
def c8meta : dwarf_meta_t :=
  { name := "x", typearg := "T", isConstant := true, isPrivate := true }

/-- Two open frames, the parent one without a scope handle. -/
def c7sNone : Symbols := symbols_push_frame oneFrame none

/-- Two open frames, the parent one with scope handle 7. -/
def c7sSome : Symbols :=
  { symbols_init false with frames := [{}, { scope := some 7 }] }

/-- A tuple forward declaration (witness input). -/
def c4metaT : dwarf_meta_t := { name := "P", isTuple := true }

/-- A reference (non-tuple) forward declaration (witness input). -/
def c4metaR : dwarf_meta_t := { name := "Q" }

/-- State in which the tuple type P is declared forward and a frame is
open, ready for resolution (witness input). -/
def c4sT : Symbols :=
  symbols_push_frame (symbols_declare (symbols_init false) c4metaT) none

/-- A method m of type T with return descriptor R and parameter
descriptors P1, P2 (witness input). -/
def c5meta : dwarf_meta_t :=
  { name := "m", mangled := "mm", file := "t.pony", line := 3,
    params := ["R", "P1", "P2"] }

/-- One open frame for the composite type T (witness input). -/
def c5s : Symbols := symbols_push_frame (symbols_init false) (some ("T", 0))

/-! Helper lemmas about the registry and the graph. -/

theorem get_entry_present {s : Symbols} {n : Option String} {v : Sym}
    (h : lookupSym s.map n = some v) : get_entry s n = (v, s) := by
  unfold get_entry; rw [h]

theorem get_entry_absent {s : Symbols} {n : Option String}
    (h : lookupSym s.map n = none) :
    get_entry s n = (emptySym n, { s with map := emptySym n :: s.map }) := by
  unfold get_entry; rw [h]

theorem get_entry_snd_frames (s : Symbols) (n : Option String) :
    (get_entry s n).2.frames = s.frames := by
  rcases h : lookupSym s.map n with _ | v
  · rw [get_entry_absent h]
  · rw [get_entry_present h]

theorem get_entry_snd_graph (s : Symbols) (n : Option String) :
    (get_entry s n).2.graph = s.graph := by
  rcases h : lookupSym s.map n with _ | v
  · rw [get_entry_absent h]
  · rw [get_entry_present h]

theorem get_entry_snd_nextId (s : Symbols) (n : Option String) :
    (get_entry s n).2.nextId = s.nextId := by
  rcases h : lookupSym s.map n with _ | v
  · rw [get_entry_absent h]
  · rw [get_entry_present h]

theorem get_entry_snd_unit (s : Symbols) (n : Option String) :
    (get_entry s n).2.unit = s.unit := by
  rcases h : lookupSym s.map n with _ | v
  · rw [get_entry_absent h]
  · rw [get_entry_present h]

theorem get_entry_map_lookup (s : Symbols) (n : Option String) :
    lookupSym (get_entry s n).2.map n = some (get_entry s n).1 := by
  rcases h : lookupSym s.map n with _ | v
  · rw [get_entry_absent h]; simp [lookupSym, emptySym]
  · rw [get_entry_present h]; exact h

theorem get_entry_fst_congr {s t : Symbols} (n : Option String) (h : s.map = t.map) :
    (get_entry s n).1 = (get_entry t n).1 := by
  rcases ht : lookupSym t.map n with _ | v
  · rw [get_entry_absent (h ▸ ht), get_entry_absent ht]
  · rw [get_entry_present (h ▸ ht), get_entry_present ht]

theorem getVal_stable (s : Symbols) (m n : Option String) :
    (get_entry (get_entry s m).2 n).1 = (get_entry s n).1 := by
  rcases hm : lookupSym s.map m with _ | v
  · rw [get_entry_absent hm]
    by_cases hmn : m = n
    · subst hmn
      have h1 : lookupSym ({ s with map := emptySym m :: s.map } : Symbols).map m
          = some (emptySym m) := by simp [lookupSym, emptySym]
      rw [get_entry_present h1, get_entry_absent hm]
    · have h1 : lookupSym ({ s with map := emptySym m :: s.map } : Symbols).map n
          = lookupSym s.map n := by simp [lookupSym, emptySym, hmn]
      rcases hn : lookupSym s.map n with _ | w
      · rw [get_entry_absent (h1.trans hn), get_entry_absent hn]
      · rw [get_entry_present (h1.trans hn), get_entry_present hn]
  · rw [get_entry_present hm]

theorem lookupSym_updateSym_self (n : Option String) (f : Sym → Sym)
    (hf : ∀ x, (f x).name = x.name) (m : List Sym) :
    lookupSym (updateSym m n f) n = (lookupSym m n).map f := by
  induction m with
  | nil => rfl
  | cons x m ih =>
    by_cases hx : x.name = n
    · simp [updateSym, lookupSym, hx, hf x]
    · simp [updateSym, lookupSym, hx, ih]

theorem lookupNode_cons_self (i : Nat) (nd : Node) (g : List (Nat × Node)) :
    lookupNode ((i, nd) :: g) i = some nd := by simp [lookupNode]

theorem lookupNode_cons_ne {i j : Nat} (nd : Node) (g : List (Nat × Node))
    (h : i ≠ j) : lookupNode ((i, nd) :: g) j = lookupNode g j := by
  simp [lookupNode, h]

theorem paramQuals_spec (ps : List String) : ∀ s : Symbols,
    (paramQuals s ps).1 = ps.map (fun p => (getOrCreateVal s (some p)).qualified)
  ∧ (∀ n, (get_entry (paramQuals s ps).2 n).1 = (get_entry s n).1)
  ∧ (paramQuals s ps).2.frames = s.frames
  ∧ (paramQuals s ps).2.graph = s.graph
  ∧ (paramQuals s ps).2.nextId = s.nextId
  ∧ (paramQuals s ps).2.unit = s.unit := by
  induction ps with
  | nil => exact fun s => ⟨rfl, fun n => rfl, rfl, rfl, rfl, rfl⟩
  | cons p ps ih =>
    intro s
    obtain ⟨ih1, ih2, ih3, ih4, ih5, ih6⟩ := ih ((get_entry s (some p)).2)
    refine ⟨?_, ?_, ?_, ?_, ?_, ?_⟩
    · show (get_entry s (some p)).1.qualified
          :: (paramQuals (get_entry s (some p)).2 ps).1 = _
      rw [ih1]
      simp only [List.map_cons, getOrCreateVal, getVal_stable]
    · intro n
      show (get_entry (paramQuals (get_entry s (some p)).2 ps).2 n).1 = _
      rw [ih2 n, getVal_stable]
    · show (paramQuals (get_entry s (some p)).2 ps).2.frames = s.frames
      rw [ih3, get_entry_snd_frames]
    · show (paramQuals (get_entry s (some p)).2 ps).2.graph = s.graph
      rw [ih4, get_entry_snd_graph]
    · show (paramQuals (get_entry s (some p)).2 ps).2.nextId = s.nextId
      rw [ih5, get_entry_snd_nextId]
    · show (paramQuals (get_entry s (some p)).2 ps).2.unit = s.unit
      rw [ih6, get_entry_snd_unit]

/-! Claim theorems. -/

/-- C2: forward-declare/resolve correctness.  In the scenario that declares
the composite name A forward as a reference type, registers the pointer
descriptor APtr with target A (captured against A's placeholder, node 2),
and resolves A with a member list, the resolved state satisfies: A's actual
is the final aggregate (node 10, a class type built from the accumulated
member list [8]); A's use type (node 3) is a pointer whose pointee is the
final aggregate; APtr's use type (node 5) is a pointer whose pointee is A's
use type; and no node of the graph references the forward-declaration
placeholder (node 2) any more. -/
theorem c2_forward_declare_resolve :
    (c2s5.map (fun t => lookupSym t.map (some "A")))
        = some (some { name := some "A", type := some 3, qualified := some 4,
                       actual := some 10, prelim := some 2 })
  ∧ (c2s5.map (fun t => lookupNode t.graph 3))
        = some (some (Node.pointerType (some 10) 64 64))
  ∧ (c2s5.map (fun t => lookupSym t.map (some "APtr")))
        = some (some { name := some "APtr", type := some 5, qualified := some 6,
                       actual := some 5, prelim := none })
  ∧ (c2s5.map (fun t => lookupNode t.graph 5))
        = some (some (Node.pointerType (some 3) 64 64))
  ∧ (c2s5.map (fun t => lookupNode t.graph 10))
        = some (some (Node.classType (some 0) "A" 9 1 64 64 0 [8]))
  ∧ (c2s5.map (fun t => t.graph.all (fun pr => !((pr.2.operands).contains 2))))
        = some true := by
  decide

/-- C3: the registry's get-or-create.  A lookup of a present name returns
the stored descriptor and changes nothing; a lookup of an absent name
creates and stores an empty descriptor (all four type fields unset) and
returns it; the call is total, and a repeated lookup returns the same
descriptor with no further mutation. -/
theorem c3_registry_get_or_create (s : Symbols) (n : Option String) :
    (∀ v, lookupSym s.map n = some v → get_entry s n = (v, s))
  ∧ (lookupSym s.map n = none →
       get_entry s n = (emptySym n, { s with map := emptySym n :: s.map })
       ∧ (emptySym n).type = none ∧ (emptySym n).qualified = none
       ∧ (emptySym n).actual = none ∧ (emptySym n).prelim = none
       ∧ lookupSym (emptySym n :: s.map) n = some (emptySym n))
  ∧ get_entry (get_entry s n).2 n = ((get_entry s n).1, (get_entry s n).2) := by
  refine ⟨fun v h => get_entry_present h, ?_, ?_⟩
  · intro h
    exact ⟨get_entry_absent h, rfl, rfl, rfl, rfl, by simp [lookupSym, emptySym]⟩
  · rcases h : lookupSym s.map n with _ | v
    · rw [get_entry_absent h]
      have h1 : lookupSym ({ s with map := emptySym n :: s.map } : Symbols).map n
          = some (emptySym n) := by simp [lookupSym, emptySym]
      rw [get_entry_present h1]
    · rw [get_entry_present h, get_entry_present h]

/-- Witness for C3 at concrete inputs: an absent lookup on the empty
registry vivifies and stores the empty descriptor; a present lookup on the
resulting registry returns it unchanged. -/
theorem c3_witness :
    get_entry (symbols_init false) (some "T")
        = (emptySym (some "T"),
           { symbols_init false with map := [emptySym (some "T")] })
  ∧ get_entry { symbols_init false with map := [emptySym (some "T")] } (some "T")
        = (emptySym (some "T"),
           { symbols_init false with map := [emptySym (some "T")] }) :=
  ⟨((c3_registry_get_or_create (symbols_init false) (some "T")).2.1 rfl).1,
   (c3_registry_get_or_create
      { symbols_init false with map := [emptySym (some "T")] } (some "T")).1
     (emptySym (some "T")) (by decide)⟩

/-- C6: the frame stack is LIFO with a fatal over-pop.  Pushing F1, F2, F3
onto an empty stack stacks them most-recent-first; each pop removes exactly
the most recently pushed frame and after three pops the original state is
restored; a pop on the empty stack is fatal (the C code dereferences the
NULL frame pointer and aborts; modelled as none). -/
theorem c6_frame_lifo (s : Symbols) (g1 g2 g3 : Option (String × Nat))
    (h : s.frames = []) :
    (symbols_push_frame (symbols_push_frame (symbols_push_frame s g1) g2) g3).frames
        = [newFrame g3, newFrame g2, newFrame g1]
  ∧ symbols_pop_frame
        (symbols_push_frame (symbols_push_frame (symbols_push_frame s g1) g2) g3)
        = some (symbols_push_frame (symbols_push_frame s g1) g2)
  ∧ symbols_pop_frame (symbols_push_frame (symbols_push_frame s g1) g2)
        = some (symbols_push_frame s g1)
  ∧ symbols_pop_frame (symbols_push_frame s g1) = some s
  ∧ symbols_pop_frame s = none := by
  refine ⟨by simp [symbols_push_frame, h], ?_, ?_, ?_, ?_⟩
  · simp [symbols_push_frame, symbols_pop_frame]
  · simp [symbols_push_frame, symbols_pop_frame]
  · simp [symbols_push_frame, symbols_pop_frame]
  · simp [symbols_pop_frame, h]

/-- Witness for C6: the push/pop round trip at the freshly initialised
state with three anonymous frames. -/
theorem c6_witness :
    (symbols_push_frame (symbols_push_frame (symbols_push_frame
        (symbols_init false) none) none) none).frames
        = [newFrame none, newFrame none, newFrame none]
  ∧ symbols_pop_frame (symbols_push_frame (symbols_push_frame (symbols_push_frame
        (symbols_init false) none) none) none)
        = some (symbols_push_frame (symbols_push_frame (symbols_init false) none) none)
  ∧ symbols_pop_frame (symbols_push_frame (symbols_push_frame
        (symbols_init false) none) none)
        = some (symbols_push_frame (symbols_init false) none)
  ∧ symbols_pop_frame (symbols_push_frame (symbols_init false) none)
        = some (symbols_init false)
  ∧ symbols_pop_frame (symbols_init false) = none :=
  c6_frame_lifo (symbols_init false) none none none rfl

/-- C9: set_location mutates only the top frame's remembered location and
the generation cursor.  The resulting state is the old state with exactly
the top frame's location field and the cursor replaced by the new DebugLoc;
the registry, the graph, the allocation counter, the unit, the release
flag, the other frames and the top frame's other fields are unchanged. -/
theorem c9_location_effect (s : Symbols) (line pos : Nat) (fr : Frame)
    (rest : List Frame) (h : s.frames = fr :: rest) :
    symbols_location s line pos =
      some { s with
             frames := { fr with location := DebugLoc.get line pos fr.scope } :: rest,
             curLoc := DebugLoc.get line pos fr.scope } := by
  simp [symbols_location, h]

/-- Witness for C9: set_location(3,7) on a state with one anonymous open
frame. -/
theorem c9_witness :
    symbols_location oneFrame 3 7 =
      some { oneFrame with
             frames := [{ newFrame none with location := DebugLoc.get 3 7 none }],
             curLoc := DebugLoc.get 3 7 none } :=
  c9_location_effect oneFrame 3 7 (newFrame none) [] rfl

/-- C10: suppress/resume on an empty frame stack is a total no-op.  With no
open frame, symbols_reset leaves the whole state (in particular the
generation cursor's debug location) unchanged in both directions. -/
theorem c10_reset_empty_noop (s : Symbols) (b : Bool) (h : s.frames = []) :
    symbols_reset s b = s := by
  simp [symbols_reset, h]

/-- Witness for C10: both the suppress and the resume direction at the
freshly initialised state. -/
theorem c10_witness :
    symbols_reset (symbols_init false) true = symbols_init false
  ∧ symbols_reset (symbols_init false) false = symbols_init false :=
  ⟨c10_reset_empty_noop (symbols_init false) true rfl,
   c10_reset_empty_noop (symbols_init false) false rfl⟩

/-- C1, counterexample to the claim as stated: in a reachable state with a
non-empty frame stack, set_location(10,4) forwards (10,4) to the cursor;
after suppress() and a subsequent resume() the position forwarded to the
cursor is (0,0), not (10,4) — suppress zeroes the top frame's remembered
position, so resume re-forwards the zeroed position. -/
theorem c1_counterexample :
    (locBase.bind (fun t => symbols_location t 10 4)).map
        (fun t => (t.curLoc.line, t.curLoc.col)) = some (10, 4)
  ∧ c1run.map (fun t => (t.curLoc.line, t.curLoc.col)) = some (0, 0)
  ∧ c1run.map (fun t => (t.curLoc.line, t.curLoc.col)) ≠ some (10, 4) := by
  decide

/-- C1 (amended): with a non-empty frame stack, after set_location(10,4)
the cursor holds (10,4); suppress() forwards (0,0) and zeroes the top
frame's remembered position; a subsequent resume() re-forwards the top
frame's stored position and therefore still forwards (0,0) — resume
restores the last explicitly set position only when no suppress()
intervened since, because it re-forwards whatever the top frame currently
stores. -/
theorem c1_amended_suppress_resume (s : Symbols) (fr : Frame)
    (rest : List Frame) (h : s.frames = fr :: rest) :
    (symbols_location s 10 4).map (fun t => t.curLoc) = some ⟨10, 4, fr.scope⟩
  ∧ (symbols_location s 10 4).map (fun t => (symbols_reset t true).curLoc)
        = some ⟨0, 0, none⟩
  ∧ (symbols_location s 10 4).map
        (fun t => (symbols_reset t true).frames.head?.map Frame.location)
        = some (some ⟨0, 0, none⟩)
  ∧ (symbols_location s 10 4).map
        (fun t => (symbols_reset (symbols_reset t true) false).curLoc)
        = some ⟨0, 0, none⟩
  ∧ (symbols_reset s false).curLoc = fr.location := by
  refine ⟨?_, ?_, ?_, ?_, ?_⟩ <;>
    simp [symbols_location, symbols_reset, DebugLoc.get, h]

/-- Witness for the amended C1 at a state with one open frame. -/
theorem c1_amended_witness :
    (symbols_location oneFrame 10 4).map (fun t => t.curLoc)
        = some ⟨10, 4, (newFrame none).scope⟩
  ∧ (symbols_location oneFrame 10 4).map (fun t => (symbols_reset t true).curLoc)
        = some ⟨0, 0, none⟩
  ∧ (symbols_location oneFrame 10 4).map
        (fun t => (symbols_reset t true).frames.head?.map Frame.location)
        = some (some ⟨0, 0, none⟩)
  ∧ (symbols_location oneFrame 10 4).map
        (fun t => (symbols_reset (symbols_reset t true) false).curLoc)
        = some ⟨0, 0, none⟩
  ∧ (symbols_reset oneFrame false).curLoc = (newFrame none).location :=
  c1_amended_suppress_resume oneFrame (newFrame none) [] rfl

/-- C8: member accumulation.  A symbols_field call on a state with an open
frame appends exactly one member handle at the end of the top frame's
member list (preserving accumulation order), and the member node's type is
the field descriptor's qualified variant when the constant flag is set and
its plain use type otherwise. -/
theorem c8_field_append (s : Symbols) (meta : dwarf_meta_t) (fr : Frame)
    (rest : List Frame) (h : s.frames = fr :: rest) :
    (symbols_field s meta).map (fun t => (t.frames, lookupNode t.graph (s.nextId + 1)))
      = some ({ fr with members := fr.members ++ [s.nextId + 1] } :: rest,
          some (Node.memberType s.unit meta.name s.nextId meta.line meta.size
              meta.align meta.offset
              (if meta.isPrivate then DW_ACCESS_private else DW_ACCESS_public)
              (if meta.isConstant then (getOrCreateVal s (some meta.typearg)).qualified
               else (getOrCreateVal s (some meta.typearg)).type))) := by
  have hs1 : (get_entry s (some meta.typearg)).2.frames = fr :: rest := by
    rw [get_entry_snd_frames, h]
  simp [symbols_field, hs1, alloc, get_entry_snd_nextId, get_entry_snd_unit,
    getOrCreateVal, lookupNode]

/-- Witness for C8: a constant private field of type T added to a state
with one open frame. -/
theorem c8_witness :
    (symbols_field oneFrame c8meta).map
        (fun t => (t.frames, lookupNode t.graph (oneFrame.nextId + 1)))
      = some ({ newFrame none with
                members := (newFrame none).members ++ [oneFrame.nextId + 1] } :: [],
          some (Node.memberType oneFrame.unit c8meta.name oneFrame.nextId
              c8meta.line c8meta.size c8meta.align c8meta.offset
              (if c8meta.isPrivate then DW_ACCESS_private else DW_ACCESS_public)
              (if c8meta.isConstant then
                 (getOrCreateVal oneFrame (some c8meta.typearg)).qualified
               else (getOrCreateVal oneFrame (some c8meta.typearg)).type))) :=
  c8_field_append oneFrame c8meta (newFrame none) [] rfl

/-- C7: lexical block precondition.  symbols_lexicalscope requires the
parent frame's scope handle to be set: with it unset the assert fails and
the call is fatal (none); with it set to h the call creates a lexical block
node parented at h and stores its handle on the newly pushed top frame. -/
theorem c7_lexical_block (s : Symbols) (meta : dwarf_meta_t) (fr parent : Frame)
    (rest : List Frame) (h : s.frames = fr :: parent :: rest) :
    (parent.scope = none → symbols_lexicalscope s meta = none)
  ∧ (∀ hd, parent.scope = some hd →
       (symbols_lexicalscope s meta).map
           (fun t => (t.frames, lookupNode t.graph (s.nextId + 1)))
         = some ({ fr with scope := some (s.nextId + 1) } :: parent :: rest,
                 some (Node.lexicalBlock hd s.nextId meta.line meta.pos))) := by
  constructor
  · intro hp; simp [symbols_lexicalscope, h, hp]
  · intro hd hp; simp [symbols_lexicalscope, h, hp, alloc, lookupNode]

/-- Witness for C7: fatal with the parent frame's scope unset; with the
parent's scope set to 7 the block is created parented at 7 and stored on
the top frame. -/
theorem c7_witness :
    symbols_lexicalscope c7sNone {} = none
  ∧ (symbols_lexicalscope c7sSome {}).map
        (fun t => (t.frames, lookupNode t.graph (c7sSome.nextId + 1)))
      = some ({ ({} : Frame) with scope := some (c7sSome.nextId + 1) }
                :: ({ scope := some 7 } : Frame) :: [],
              some (Node.lexicalBlock 7 c7sSome.nextId
                ({} : dwarf_meta_t).line ({} : dwarf_meta_t).pos)) :=
  ⟨(c7_lexical_block c7sNone {} {} {} [] rfl).1 rfl,
   (c7_lexical_block c7sSome {} {} { scope := some 7 } [] rfl).2 7 rfl⟩

/-- C4: value vs reference composites.  A forward declaration with the
tuple flag set gives the descriptor the placeholder itself as use type (no
indirection) and the const wrapper of the placeholder as qualified variant;
without the tuple flag the use type is a pointer to the placeholder and the
qualified variant is the const wrapper of that pointer; and resolving a
tuple composite sets the use type equal to the actual aggregate. -/
theorem c4_value_vs_reference :
    (∀ (s : Symbols) (meta : dwarf_meta_t), meta.isTuple = true →
       lookupSym (symbols_declare s meta).map (some meta.name)
           = some { getOrCreateVal s (some meta.name) with
                    prelim := some (s.nextId + 1), type := some (s.nextId + 1),
                    qualified := some (s.nextId + 2) }
       ∧ lookupNode (symbols_declare s meta).graph (s.nextId + 1)
           = some (Node.replaceable DW_TAG_structure_type meta.name s.unit
               s.nextId meta.line)
       ∧ lookupNode (symbols_declare s meta).graph (s.nextId + 2)
           = some (Node.qualifiedType DW_TAG_const_type (some (s.nextId + 1))))
  ∧ (∀ (s : Symbols) (meta : dwarf_meta_t), meta.isTuple = false →
       lookupSym (symbols_declare s meta).map (some meta.name)
           = some { getOrCreateVal s (some meta.name) with
                    prelim := some (s.nextId + 1), type := some (s.nextId + 2),
                    qualified := some (s.nextId + 3) }
       ∧ lookupNode (symbols_declare s meta).graph (s.nextId + 1)
           = some (Node.replaceable DW_TAG_class_type meta.name s.unit
               s.nextId meta.line)
       ∧ lookupNode (symbols_declare s meta).graph (s.nextId + 2)
           = some (Node.pointerType (some (s.nextId + 1)) meta.size meta.align)
       ∧ lookupNode (symbols_declare s meta).graph (s.nextId + 3)
           = some (Node.qualifiedType DW_TAG_const_type (some (s.nextId + 2))))
  ∧ (∀ (s : Symbols) (meta : dwarf_meta_t) (fr : Frame) (rest : List Frame)
       (p : Nat), meta.isTuple = true → s.frames = fr :: rest →
       (getOrCreateVal s (some meta.name)).prelim = some p →
       (symbols_composite s meta).map (fun t => lookupSym t.map (some meta.name))
         = some (some { getOrCreateVal s (some meta.name) with
                        actual := some (s.nextId + 1), type := some (s.nextId + 1) })) := by
  refine ⟨?_, ?_, ?_⟩
  · intro s meta ht
    refine ⟨?_, ?_, ?_⟩
    · show lookupSym (symbols_declare s meta).map (some meta.name) = _
      unfold symbols_declare
      simp only [ht, if_true, alloc]
      rw [lookupSym_updateSym_self, get_entry_map_lookup]
      · simp [getOrCreateVal, get_entry_snd_nextId]
      · exact fun x => rfl
    · unfold symbols_declare
      simp only [ht, if_true, alloc]
      simp [get_entry_snd_nextId, get_entry_snd_unit, lookupNode]
    · unfold symbols_declare
      simp only [ht, if_true, alloc]
      simp [get_entry_snd_nextId, lookupNode]
  · intro s meta ht
    refine ⟨?_, ?_, ?_, ?_⟩
    · show lookupSym (symbols_declare s meta).map (some meta.name) = _
      unfold symbols_declare
      simp only [ht, if_false, Bool.false_eq_true]
      simp only [alloc]
      rw [lookupSym_updateSym_self, get_entry_map_lookup]
      · simp [getOrCreateVal, get_entry_snd_nextId]
      · exact fun x => rfl
    · unfold symbols_declare
      simp only [ht, if_false, Bool.false_eq_true]
      simp [alloc, get_entry_snd_nextId, get_entry_snd_unit, lookupNode]
      omega
    · unfold symbols_declare
      simp only [ht, if_false, Bool.false_eq_true]
      simp [alloc, get_entry_snd_nextId, lookupNode]
    · unfold symbols_declare
      simp only [ht, if_false, Bool.false_eq_true]
      simp [alloc, get_entry_snd_nextId, lookupNode]
  · intro s meta fr rest p ht hf hp
    rcases h : lookupSym s.map (some meta.name) with _ | v
    · exfalso
      have he : getOrCreateVal s (some meta.name) = emptySym (some meta.name) := by
        unfold getOrCreateVal; rw [get_entry_absent h]
      rw [he] at hp
      simp [emptySym] at hp
    · have hval : getOrCreateVal s (some meta.name) = v := by
        unfold getOrCreateVal; rw [get_entry_present h]
      have hvp : v.prelim = some p := by rw [← hval]; exact hp
      have h1 : lookupSym ((alloc s (Node.file meta.file)).2).map (some meta.name)
          = some v := h
      unfold symbols_composite
      simp only [hf]
      rw [get_entry_present h1]
      simp only [hvp, ht, if_true, alloc, rauw]
      simp only [Option.map_some']
      rw [lookupSym_updateSym_self]
      · simp [h, hval]
      · exact fun x => rfl

/-- Witness for C4: the tuple declaration of P, the reference declaration
of Q, and the resolution of the declared tuple P, all at concrete
states. -/
theorem c4_witness :
    (lookupSym (symbols_declare (symbols_init false) c4metaT).map (some c4metaT.name)
        = some { getOrCreateVal (symbols_init false) (some c4metaT.name) with
                 prelim := some 1, type := some 1, qualified := some 2 }
     ∧ lookupNode (symbols_declare (symbols_init false) c4metaT).graph 1
        = some (Node.replaceable DW_TAG_structure_type c4metaT.name none 0 c4metaT.line)
     ∧ lookupNode (symbols_declare (symbols_init false) c4metaT).graph 2
        = some (Node.qualifiedType DW_TAG_const_type (some 1)))
  ∧ (lookupSym (symbols_declare (symbols_init false) c4metaR).map (some c4metaR.name)
        = some { getOrCreateVal (symbols_init false) (some c4metaR.name) with
                 prelim := some 1, type := some 2, qualified := some 3 }
     ∧ lookupNode (symbols_declare (symbols_init false) c4metaR).graph 1
        = some (Node.replaceable DW_TAG_class_type c4metaR.name none 0 c4metaR.line)
     ∧ lookupNode (symbols_declare (symbols_init false) c4metaR).graph 2
        = some (Node.pointerType (some 1) c4metaR.size c4metaR.align)
     ∧ lookupNode (symbols_declare (symbols_init false) c4metaR).graph 3
        = some (Node.qualifiedType DW_TAG_const_type (some 2)))
  ∧ (symbols_composite c4sT c4metaT).map (fun t => lookupSym t.map (some c4metaT.name))
        = some (some { getOrCreateVal c4sT (some c4metaT.name) with
                       actual := some (c4sT.nextId + 1),
                       type := some (c4sT.nextId + 1) }) :=
  ⟨c4_value_vs_reference.1 (symbols_init false) c4metaT rfl,
   c4_value_vs_reference.2.1 (symbols_init false) c4metaR rfl,
   c4_value_vs_reference.2.2 c4sT c4metaT (newFrame none) [] 1 rfl rfl (by decide)⟩

/-- Congruence: get_entry reads only the registry map, so changing the
graph and the allocation counter does not affect the value it returns. -/
theorem get_entry_fst_graphset (s : Symbols) (g : List (Nat × Node)) (k : Nat)
    (n : Option String) :
    (get_entry { s with graph := g, nextId := k } n).1 = (get_entry s n).1 :=
  get_entry_fst_congr n rfl

/-- C5: method signature shape.  For an open_method call whose parameter
descriptor name list is the return name r followed by the parameter names
ps, the subroutine signature node has exactly ps.length + 1 entries, entry
0 being r's plain use type and the following entries the corresponding
parameters' qualified variants; the method scope node is parented at the
owning type's actual descriptor (the descriptor of the top frame's type
name) and its handle is stored on the top frame. -/
theorem c5_method_signature (s : Symbols) (meta : dwarf_meta_t) (r : String)
    (ps : List String) (fr : Frame) (rest : List Frame)
    (hp : meta.params = r :: ps) (h : s.frames = fr :: rest) :
    ((symbols_method s meta).map
        (fun t => (lookupNode t.graph (s.nextId + 1),
                   lookupNode t.graph (s.nextId + 2), t.frames))
      = some
          (some (Node.subroutineType s.nextId
              ((getOrCreateVal s (some r)).type
                :: ps.map (fun q => (getOrCreateVal s (some q)).qualified))),
           some (Node.methodScope (getOrCreateVal s fr.type_name).actual meta.name
               meta.mangled s.nextId meta.line (s.nextId + 1)),
           { fr with scope := some (s.nextId + 2) } :: rest))
  ∧ ((getOrCreateVal s (some r)).type
       :: ps.map (fun q => (getOrCreateVal s (some q)).qualified)).length
      = ps.length + 1 := by
  obtain ⟨hq1, hq2, hq3, hq4, hq5, hq6⟩ := paramQuals_spec ps ((get_entry s (some r)).2)
  constructor
  · have hfr : (paramQuals ((get_entry s (some r)).2) ps).2.frames = fr :: rest := by
      rw [hq3, get_entry_snd_frames, h]
    have hnx : (paramQuals ((get_entry s (some r)).2) ps).2.nextId = s.nextId := by
      rw [hq5, get_entry_snd_nextId]
    have hqs : (paramQuals ((get_entry s (some r)).2) ps).1
        = ps.map (fun q => (getOrCreateVal s (some q)).qualified) := by
      rw [hq1]; simp only [getOrCreateVal, getVal_stable]
    have hd : ∀ n, (get_entry (paramQuals ((get_entry s (some r)).2) ps).2 n).1
        = (get_entry s n).1 := fun n => by rw [hq2 n, getVal_stable]
    have h2 : s.nextId + 1 + 1 = s.nextId + 2 := rfl
    unfold symbols_method
    simp only [hp]
    simp only [alloc, hfr, hnx, hqs, h2, get_entry_fst_graphset, hd,
      get_entry_snd_graph, get_entry_snd_nextId, getOrCreateVal]
    simp [lookupNode, getOrCreateVal, hd]
    have hlit : (get_entry
        { map := (paramQuals (get_entry s (some r)).2 ps).2.map,
          graph := (s.nextId + 1, Node.subroutineType s.nextId
              ((get_entry s (some r)).1.type
                :: List.map (fun q => (get_entry s (some q)).1.qualified) ps))
            :: (s.nextId, Node.file meta.file)
            :: (paramQuals (get_entry s (some r)).2 ps).2.graph,
          nextId := s.nextId + 2,
          unit := (paramQuals (get_entry s (some r)).2 ps).2.unit,
          release := (paramQuals (get_entry s (some r)).2 ps).2.release,
          frames := fr :: rest,
          curLoc := (paramQuals (get_entry s (some r)).2 ps).2.curLoc }
        fr.type_name).1
        = (get_entry (paramQuals (get_entry s (some r)).2 ps).2 fr.type_name).1 :=
      get_entry_fst_congr fr.type_name rfl
    rw [hlit]
    exact congrArg Sym.actual (hd fr.type_name)
  · simp

/-- Witness for C5: method m on the open frame for T with descriptor names
[R, P1, P2] — a three-entry signature with R's plain use type first and
P1's, P2's qualified variants after it. -/
theorem c5_witness :
    ((symbols_method c5s c5meta).map
        (fun t => (lookupNode t.graph (c5s.nextId + 1),
                   lookupNode t.graph (c5s.nextId + 2), t.frames))
      = some
          (some (Node.subroutineType c5s.nextId
              ((getOrCreateVal c5s (some "R")).type
                :: ["P1", "P2"].map (fun q => (getOrCreateVal c5s (some q)).qualified))),
           some (Node.methodScope
               (getOrCreateVal c5s (newFrame (some ("T", 0))).type_name).actual
               c5meta.name c5meta.mangled c5s.nextId c5meta.line (c5s.nextId + 1)),
           { newFrame (some ("T", 0)) with scope := some (c5s.nextId + 2) } :: []))
  ∧ ((getOrCreateVal c5s (some "R")).type
       :: ["P1", "P2"].map (fun q => (getOrCreateVal c5s (some q)).qualified)).length
      = ["P1", "P2"].length + 1 :=
  c5_method_signature c5s c5meta "R" ["P1", "P2"] (newFrame (some ("T", 0))) [] rfl rfl

end PonyDebug
